import Mathlib

/-!
Verification development for the VisionAssist AR repository.

The repository is a React frontend (face recognition controller in the
FaceRecognition component, notification bridge in App.js) talking to an
Express backend (face CRUD routes, route-safety scorer).  This file gives a
shallow embedding of the pieces the specification talks about:

* descriptors are `List ℚ` (the JavaScript numbers of a face descriptor);
  Euclidean distances are represented by their squares so that everything
  stays inside `ℚ` and is executable — `sqrt` is strictly monotone on
  nonnegative reals, so comparisons against the threshold 0.6 and argmin
  selection are unchanged by working with squared distances against 0.36;
* the backend store (MongoDB or the in-memory fallback array) is a
  `List FaceRec` plus a flag saying which backend is active;
* the frontend controller state is the stored faces together with the
  cached `FaceMatcher`;
* the periodic detection loop is a small event-step relation;
* the notification bridge is a list of pending entries keyed by the
  `Date.now()` millisecond at which they were added.
-/

namespace VisionAssist

/-- Squared Euclidean distance between two descriptor vectors, summing the
squared coordinate differences pairwise (`zipWith` mirrors the pointwise
loop of a Euclidean distance over equal-length vectors). -/
def distSq (xs ys : List ℚ) : ℚ :=
  (List.zipWith (fun a b => (a - b) ^ 2) xs ys).sum

/-- The matcher distance threshold 0.6 used by the frontend
(`new faceapi.FaceMatcher(labeledDescriptors, 0.6)`), squared: 0.36. -/
def matcherThresholdSq : ℚ := (3 / 5) ^ 2

/-- The matcher cache: labeled reference descriptors (one descriptor per
label entry, exactly as `loadFaceDescriptors` builds one
`LabeledFaceDescriptors` holding a single descriptor per stored record)
plus the squared distance threshold fixed at construction. -/
structure FaceMatcherM where
  labeledDescriptors : List (String × List ℚ)
  distanceThresholdSq : ℚ
deriving DecidableEq

/-- The reference entry at minimum (squared) distance from `probe`,
starting from `r` and scanning `rs` left to right; a strictly smaller
distance replaces the current best, so ties keep the first-encountered
entry. -/
def bestRef (probe : List ℚ) (r : String × List ℚ) (rs : List (String × List ℚ)) :
    String × List ℚ :=
  rs.foldl (fun b x => if distSq probe x.2 < distSq probe b.2 then x else b) r

/-- Modelled from the spec: `faceapi.FaceMatcher.findBestMatch` is external
library code (face-api.js), not part of this repository's sources; the
spec's Descriptor Matcher contract says `match(probeDescriptor)` computes
the minimum Euclidean distance between the probe and every reference
descriptor across all labels, returns the closest label when that distance
is at most the threshold and the sentinel label "unknown" otherwise, ties
broken by first-encountered label in insertion order.  An empty reference
list has no best match (`none`). -/
def findBestMatch (m : FaceMatcherM) (probe : List ℚ) : Option (String × ℚ) :=
  match m.labeledDescriptors with
  | [] => none
  | r :: rs =>
    let best := bestRef probe r rs
    let d := distSq probe best.2
    if d ≤ m.distanceThresholdSq then some (best.1, d) else some ("unknown", d)

/-- A stored face record, as persisted by the backend (`faceSchema` /
the in-memory fallback objects): name, descriptor, partition key,
creation timestamp and optional image URL, keyed by an opaque id. -/
structure FaceRec where
  id : Nat
  name : String
  descriptor : List ℚ
  userId : String
  timestamp : Nat
  imageUrl : Option String
deriving DecidableEq

/-- The metadata shape returned by `GET /api/faces` — the descriptor
payload is excluded by construction (`select('-faceDescriptor')` on the
MongoDB path, and the explicit `map` on both paths keeps only id, name,
timestamp, imageUrl). -/
structure FaceMeta where
  id : Nat
  name : String
  timestamp : Nat
  imageUrl : Option String
deriving DecidableEq

/-- The entry shape returned by `GET /api/faces/descriptors`. -/
structure DescEntry where
  id : Nat
  name : String
  descriptor : List ℚ
deriving DecidableEq

/-- Backend server state: which storage backend is active
(`mongoose.connection.readyState === 1`) and the stored records.  Both
backends hold records in insertion order (MongoDB natural order for a
plain `find`, `push` for the in-memory array). -/
structure ServerState where
  mongoConnected : Bool
  faces : List FaceRec
deriving DecidableEq

/-- The JSON body of `POST /api/faces/register`; absent fields are
`none`. -/
structure RegisterReq where
  name : Option String
  faceDescriptor : Option (List ℚ)
  userId : Option String
  imageUrl : Option String

/-- Outcome of the register route: the new server state, the `success`
flag of the JSON response and the HTTP status code. -/
structure RegisterOut where
  server : ServerState
  success : Bool
  status : Nat
deriving DecidableEq

/-- `userId || 'default_user'`: JavaScript falsiness treats both an
absent and an empty-string userId as missing. -/
def defaultedUserId (userId : Option String) : String :=
  match userId with
  | none => "default_user"
  | some u => if u = "" then "default_user" else u

/-- `POST /api/faces/register` (src/unnamed/part_003 lines 123-186).
`if (!name || !faceDescriptor)` rejects with HTTP 400 exactly when `name`
is absent or the empty string, or `faceDescriptor` is absent — an empty
descriptor *array* is truthy in JavaScript and is accepted.  Otherwise
both the MongoDB branch (`newFace.save()`) and the in-memory branch
(`inMemoryFaces.push(newFace)`) append exactly one record; `newId` and
`ts` stand for the store-assigned id and `Date.now()` timestamp. -/
def registerRoute (s : ServerState) (req : RegisterReq) (newId ts : Nat) : RegisterOut :=
  match req.name, req.faceDescriptor with
  | some n, some d =>
    if n = "" then ⟨s, false, 400⟩
    else
      ⟨{ s with faces := s.faces ++
          [{ id := newId, name := n, descriptor := d,
             userId := defaultedUserId req.userId, timestamp := ts,
             imageUrl := req.imageUrl }] }, true, 200⟩
  | _, _ => ⟨s, false, 400⟩

/-- The user filter shared by the list and descriptors routes:
`userId ? {userId} : {}` (and the in-memory `filter`); an empty-string
query value is falsy and matches every record. -/
def uidMatch (userId : Option String) (f : FaceRec) : Bool :=
  match userId with
  | none => true
  | some u => if u = "" then true else f.userId == u

/-- Newest-first ordering on stored records: `sort({ timestamp: -1 })`. -/
def tsDesc (a b : FaceRec) : Prop := b.timestamp ≤ a.timestamp

instance : DecidableRel tsDesc := fun a b =>
  inferInstanceAs (Decidable (b.timestamp ≤ a.timestamp))

instance : IsTotal FaceRec tsDesc :=
  ⟨fun a b => (Nat.le_total b.timestamp a.timestamp).imp id id⟩

instance : IsTrans FaceRec tsDesc :=
  ⟨fun _ _ _ hab hbc => le_trans hbc hab⟩

/-- Projection to the metadata shape (drops the descriptor). -/
def toMeta (f : FaceRec) : FaceMeta :=
  ⟨f.id, f.name, f.timestamp, f.imageUrl⟩

/-- `GET /api/faces` (src/unnamed/part_003 lines 189-230).  The MongoDB
branch filters by userId, sorts newest-first and strips descriptors; the
in-memory branch only filters — it returns the records in stored
(insertion) order, with no sort. -/
def listFacesRoute (s : ServerState) (userId : Option String) : List FaceMeta :=
  let filtered := s.faces.filter (uidMatch userId)
  if s.mongoConnected then
    (List.insertionSort tsDesc filtered).map toMeta
  else
    filtered.map toMeta

/-- `GET /api/faces/descriptors` (src/unnamed/part_003 lines 233-272):
filter by userId, keep id, name and the descriptor; neither branch
sorts. -/
def descriptorsRoute (s : ServerState) (userId : Option String) : List DescEntry :=
  (s.faces.filter (uidMatch userId)).map fun f => ⟨f.id, f.name, f.descriptor⟩

/-- `DELETE /api/faces/:id` (src/unnamed/part_003 lines 275-301).  The
MongoDB branch awaits `findByIdAndDelete` (removes the record with that
id when present, resolves either way) and answers success; the in-memory
branch reassigns `inMemoryFaces.filter(f => f.id !== id)` and answers
success.  Both responses carry `success: true` unconditionally. -/
def deleteFaceRoute (s : ServerState) (id : Nat) : ServerState × Bool :=
  if s.mongoConnected then
    ({ s with faces := s.faces.filter (fun f => f.id != id) }, true)
  else
    ({ s with faces := s.faces.filter (fun f => f.id != id) }, true)

/-- JavaScript `String.prototype.trim()`: drop whitespace from both ends
(embedded directly over the character list, as used by
`newPersonName.trim()` in the registration guard). -/
def strTrim (s : String) : String :=
  ⟨((s.data.dropWhile Char.isWhitespace).reverse.dropWhile Char.isWhitespace).reverse⟩

/-- Combined state of the FaceRecognition frontend component and the
backend it talks to: the server, the `registeredFaces` metadata list and
the cached `faceMatcher` (none before the first successful build). -/
structure SystemState where
  server : ServerState
  registeredFaces : List FaceMeta
  faceMatcher : Option FaceMatcherM
deriving DecidableEq

/-- `loadFaceDescriptors` (src/unnamed/part_001 lines 78-100): fetch the
descriptors for `default_user`; only when `data.faces.length > 0` build
one labeled descriptor per record and replace the matcher (threshold
0.6).  When the list comes back empty the matcher is left unchanged. -/
def loadFaceDescriptors (s : SystemState) : SystemState :=
  let faces := descriptorsRoute s.server (some "default_user")
  if 0 < faces.length then
    let m : FaceMatcherM := ⟨faces.map (fun f => (f.name, f.descriptor)), matcherThresholdSq⟩
    { s with faceMatcher := some m }
  else s

/-- `loadRegisteredFaces` (src/unnamed/part_001 lines 56-75): refresh the
metadata list from `GET /api/faces?userId=default_user`, then reload the
descriptors. -/
def loadRegisteredFaces (s : SystemState) : SystemState :=
  loadFaceDescriptors
    { s with registeredFaces := listFacesRoute s.server (some "default_user") }

/-- `registerFace` (src/unnamed/part_001 lines 207-267): bail out when
the typed name is blank after trimming; otherwise send the freshly
extracted descriptor (`d`, the external model's output) to the register
route with userId `default_user`, and on success reload faces and
descriptors before finishing. -/
def registerFaceFlow (s : SystemState) (name : String) (d : List ℚ) (newId ts : Nat) :
    SystemState :=
  if strTrim name = "" then s
  else
    let out := registerRoute s.server ⟨some name, some d, some "default_user", none⟩ newId ts
    if out.success then loadRegisteredFaces { s with server := out.server }
    else s

/-- `deleteFace` (src/unnamed/part_001 lines 270-291): call the delete
route and, on success, reload faces and descriptors. -/
def deleteFaceFlow (s : SystemState) (id : Nat) : SystemState :=
  let out := deleteFaceRoute s.server id
  if out.2 then loadRegisteredFaces { s with server := out.1 }
  else s

/-- One recognition query of the detection loop
(`faceMatcher.findBestMatch(detection.descriptor)` in `detectFaces`,
src/unnamed/part_001 lines 167-178); no matcher, no recognition. -/
def matchProbe (s : SystemState) (probe : List ℚ) : Option (String × ℚ) :=
  match s.faceMatcher with
  | none => none
  | some m => findBestMatch m probe

/-- State of the periodic detection loop (src/unnamed/part_001,
`startDetection` lines 192-196 and `detectFaces` lines 134-189):
whether the 100ms interval is installed (`isDetecting`), whether the
camera stream is still held, how many asynchronous model calls started by
`detectFaces` are currently unresolved, and the log of detection results
applied after their `await` (the `setDetectedFaces`/draw continuation,
each result abstracted to a `Nat` payload). -/
structure LoopState where
  isDetecting : Bool
  cameraOn : Bool
  inFlight : Nat
  applied : List Nat
deriving DecidableEq

/-- Events of the single-threaded event loop: an interval tick firing
`detectFaces`, the resolution of one in-flight model call (running the
post-`await` continuation), and `stopWebcam` (clears the interval and
releases the stream). -/
inductive Ev where
  | tick : Ev
  | resolve : Nat → Ev
  | stop : Ev
deriving DecidableEq

/-- One event step, exactly as the source handles it.  `detectFaces`
only guards on `videoRef.current`, `modelsLoaded` and `canvasRef.current`
— none of which track an in-flight call — so a tick always starts a new
model call while the interval is installed.  The continuation after the
`await` applies the result unconditionally: nothing in it re-checks
whether the camera was stopped in the interim. -/
def step (s : LoopState) (e : Ev) : LoopState :=
  match e with
  | Ev.tick =>
    if s.isDetecting then { s with inFlight := s.inFlight + 1 } else s
  | Ev.resolve r =>
    if 0 < s.inFlight then
      { s with inFlight := s.inFlight - 1, applied := s.applied ++ [r] }
    else s
  | Ev.stop => { s with isDetecting := false, cameraOn := false }

/-- Run the loop over a sequence of events. -/
def runLoop (s : LoopState) (evs : List Ev) : LoopState :=
  evs.foldl step s

/-- The duration object of a Google Directions leg (`duration.value` is
the duration in seconds). -/
structure DurationInfo where
  value : ℚ
deriving DecidableEq

/-- One leg of a returned route. -/
structure RouteLeg where
  duration : DurationInfo
deriving DecidableEq

/-- A route returned by the Directions API, as read by the scorer. -/
structure Route where
  legs : List RouteLeg
deriving DecidableEq

/-- `calculateSafetyScore` (src/unnamed/part_003 lines 367-376): base
score 75, +10 when the first leg's duration is under 15 minutes, −10
when it is over 45 minutes, clamped to [50, 95] by
`Math.max(50, Math.min(95, score))`.  The source reads `route.legs[0]`
unconditionally; a route with no legs would throw, modelled as `none`. -/
def calculateSafetyScore (route : Route) : Option ℚ :=
  match route.legs with
  | [] => none
  | leg :: _ =>
    let durationMinutes := leg.duration.value / 60
    let base : ℚ := 75
    let s1 := if durationMinutes < 15 then base + 10 else base
    let s2 := if 45 < durationMinutes then s1 - 10 else s1
    some (max 50 (min 95 s2))

/-- A pending notification entry of App.js: the `Date.now()` id, the
message and the severity string. -/
structure NotificationEntry where
  id : Nat
  message : String
  ntype : String
deriving DecidableEq

/-- The fixed auto-dismiss delay of `addNotification` (`setTimeout(...,
5000)`). -/
def notificationTimeoutMs : Nat := 5000

/-- `addNotification` (src/frontend/src/App.js lines 27-35): append an
entry whose id is the current `Date.now()` millisecond (`now`), and
schedule its removal at `now + 5000`.  Returns the new pending list and
the scheduled removal instant. -/
def addNotificationStep (notifs : List NotificationEntry) (now : Nat)
    (message ntype : String) : List NotificationEntry × Nat :=
  (notifs ++ [⟨now, message, ntype⟩], now + notificationTimeoutMs)

/-- The scheduled removal callback:
`setNotifications(prev => prev.filter(n => n.id !== id))` — it drops
every pending entry carrying the captured id. -/
def removeNotificationStep (notifs : List NotificationEntry) (id : Nat) :
    List NotificationEntry :=
  notifs.filter (fun n => n.id != id)

theorem distSq_nonneg (xs ys : List ℚ) : 0 ≤ distSq xs ys := by
  induction xs generalizing ys with
  | nil => simp [distSq]
  | cons a xs ih =>
    cases ys with
    | nil => simp [distSq]
    | cons b ys =>
      have h1 : (0 : ℚ) ≤ (a - b) ^ 2 := sq_nonneg _
      have h2 := ih ys
      simp only [distSq, List.zipWith_cons_cons, List.sum_cons] at *
      linarith

theorem distSq_self (xs : List ℚ) : distSq xs xs = 0 := by
  induction xs with
  | nil => simp [distSq]
  | cons a xs ih =>
    simp only [distSq, List.zipWith_cons_cons, List.sum_cons] at *
    simp [ih]

theorem bestRef_mem (probe : List ℚ) :
    ∀ (rs : List (String × List ℚ)) (r : String × List ℚ),
      bestRef probe r rs ∈ r :: rs := by
  intro rs
  induction rs with
  | nil => intro r; simp [bestRef]
  | cons a t ih =>
    intro r
    by_cases h : distSq probe a.2 < distSq probe r.2
    · have hm := ih a
      simp only [bestRef, List.foldl_cons, if_pos h] at *
      rcases List.mem_cons.1 hm with h1 | h1
      · exact List.mem_cons.2 (Or.inr (List.mem_cons.2 (Or.inl h1)))
      · exact List.mem_cons.2 (Or.inr (List.mem_cons.2 (Or.inr h1)))
    · have hm := ih r
      simp only [bestRef, List.foldl_cons, if_neg h] at *
      rcases List.mem_cons.1 hm with h1 | h1
      · exact List.mem_cons.2 (Or.inl h1)
      · exact List.mem_cons.2 (Or.inr (List.mem_cons.2 (Or.inr h1)))

theorem bestRef_min (probe : List ℚ) :
    ∀ (rs : List (String × List ℚ)) (r x : String × List ℚ), x ∈ r :: rs →
      distSq probe (bestRef probe r rs).2 ≤ distSq probe x.2 := by
  intro rs
  induction rs with
  | nil =>
    intro r x hx
    rcases List.mem_cons.1 hx with h1 | h1
    · rw [h1]; simp [bestRef]
    · simp at h1
  | cons a t ih =>
    intro r x hx
    by_cases h : distSq probe a.2 < distSq probe r.2
    · have hkey : bestRef probe r (a :: t) = bestRef probe a t := by
        simp [bestRef, List.foldl_cons, if_pos h]
      rw [hkey]
      rcases List.mem_cons.1 hx with h1 | h1
      · rw [h1]
        have := ih a a (List.mem_cons.2 (Or.inl rfl))
        exact le_trans this (le_of_lt h)
      · exact ih a x h1
    · have hkey : bestRef probe r (a :: t) = bestRef probe r t := by
        simp [bestRef, List.foldl_cons, if_neg h]
      rw [hkey]
      rcases List.mem_cons.1 hx with h1 | h1
      · rw [h1]
        exact ih r r (List.mem_cons.2 (Or.inl rfl))
      · rcases List.mem_cons.1 h1 with h2 | h2
        · rw [h2]
          have hbr := ih r r (List.mem_cons.2 (Or.inl rfl))
          exact le_trans hbr (le_of_not_lt h)
        · exact ih r x (List.mem_cons.2 (Or.inr h2))

/-- Characterisation of `findBestMatch` on a non-empty reference list:
the returned pair is built from a reference entry whose squared distance
to the probe is minimal, labelled with that entry's label when the
distance is within the threshold and with "unknown" otherwise. -/
theorem findBestMatch_spec (refs : List (String × List ℚ)) (th : ℚ) (probe : List ℚ)
    (h : refs ≠ []) :
    ∃ best ∈ refs,
      findBestMatch ⟨refs, th⟩ probe =
        some (if distSq probe best.2 ≤ th then best.1
              else "unknown", distSq probe best.2) ∧
      ∀ x ∈ refs, distSq probe best.2 ≤ distSq probe x.2 := by
  cases refs with
  | nil => simp at h
  | cons r rs =>
    refine ⟨bestRef probe r rs, bestRef_mem probe rs r, ?_, ?_⟩
    · simp only [findBestMatch]
      by_cases hth : distSq probe (bestRef probe r rs).2 ≤ th
      · simp [hth]
      · simp [hth]
    · intro x hx
      exact bestRef_min probe rs r x hx

/-- Claim C1: for every probe descriptor and every non-empty list of
labeled reference descriptors with threshold 0.6, `match` attains the
minimum (squared) Euclidean distance between the probe and every
reference descriptor across all labels, returns the label of a closest
reference when that minimum is at most the threshold, and returns the
sentinel label "unknown" otherwise.  (Distances are squared throughout;
0.6² = matcherThresholdSq, and squaring preserves both the comparison
with the threshold and which reference is closest.) -/
theorem C1_match_min_threshold (refs : List (String × List ℚ)) (probe : List ℚ)
    (h : refs ≠ []) :
    ∃ lbl d, findBestMatch ⟨refs, matcherThresholdSq⟩ probe = some (lbl, d) ∧
      (∃ r ∈ refs, distSq probe r.2 = d) ∧
      (∀ r ∈ refs, d ≤ distSq probe r.2) ∧
      (d ≤ matcherThresholdSq → ∃ r ∈ refs, r.1 = lbl ∧ distSq probe r.2 = d) ∧
      (matcherThresholdSq < d → lbl = "unknown") := by
  obtain ⟨best, hmem, heq, hmin⟩ :=
    findBestMatch_spec refs matcherThresholdSq probe h
  refine ⟨_, distSq probe best.2, heq, ⟨best, hmem, rfl⟩, hmin, ?_, ?_⟩
  · intro hle
    exact ⟨best, hmem, by simp [hle], rfl⟩
  · intro hgt
    simp [not_le.2 hgt]

/-- Witness for C1: a single reference "Alice" at [0,0,0] with probe
[1/100,0,0] (the spec's scenario: distance 0.01 ≤ 0.6 → "Alice"). -/
theorem C1_match_min_threshold_witness :
    ([(("Alice" : String), ([0, 0, 0] : List ℚ))] ≠ []) ∧
      (∃ lbl d,
        findBestMatch ⟨[("Alice", [0, 0, 0])], matcherThresholdSq⟩ [1/100, 0, 0] =
          some (lbl, d) ∧
        (∃ r ∈ [(("Alice" : String), ([0, 0, 0] : List ℚ))], distSq [1/100, 0, 0] r.2 = d) ∧
        (∀ r ∈ [(("Alice" : String), ([0, 0, 0] : List ℚ))], d ≤ distSq [1/100, 0, 0] r.2) ∧
        (d ≤ matcherThresholdSq →
          ∃ r ∈ [(("Alice" : String), ([0, 0, 0] : List ℚ))],
            r.1 = lbl ∧ distSq [1/100, 0, 0] r.2 = d) ∧
        (matcherThresholdSq < d → lbl = "unknown")) :=
  ⟨by decide, C1_match_min_threshold [("Alice", [0, 0, 0])] [1/100, 0, 0] (by decide)⟩

/-- Claim C2 (code bug): the spec requires that after `delete(id)` no
subsequent `match` ever returns the deleted record's label, even when the
deleted record was the last one and its own descriptor is the probe.  The
code violates this: `loadFaceDescriptors` rebuilds the matcher only when
the fetched descriptor list is non-empty (`data.faces.length > 0`), so
deleting the last record leaves the stale matcher in place and its own
descriptor still matches its label.  Concretely: the store holds only
"Alice" (id 1, descriptor [0]); after `deleteFace 1` the store is empty,
yet matching [0] still returns ("Alice", 0). -/
theorem C2_delete_stale_matcher_bug :
    let m : FaceMatcherM := ⟨[("Alice", [0])], matcherThresholdSq⟩
    let s0 : SystemState :=
      ⟨⟨false, [⟨1, "Alice", [0], "default_user", 0, none⟩]⟩,
       [⟨1, "Alice", 0, none⟩], some m⟩
    let s1 := deleteFaceFlow s0 1
    s1.server.faces = [] ∧ matchProbe s1 [0] = some ("Alice", 0) := by
  have h1 : distSq [0] [0] = 0 := distSq_self _
  have h2 : ((0 : ℚ) ≤ matcherThresholdSq) := by norm_num [matcherThresholdSq]
  refine ⟨by simp [deleteFaceFlow, deleteFaceRoute, loadRegisteredFaces,
    loadFaceDescriptors, descriptorsRoute, listFacesRoute, uidMatch, toMeta], ?_⟩
  simp [deleteFaceFlow, deleteFaceRoute, loadRegisteredFaces,
    loadFaceDescriptors, descriptorsRoute, listFacesRoute, uidMatch, toMeta,
    matchProbe, findBestMatch, bestRef, h1, h2]

/-- Counterexample to claim C3 as stated: registering "Alice" with a
descriptor identical to the already-registered "Bob"'s makes the very
next match on that descriptor return "Bob" — the minimum distance 0 is
attained by both references and the tie goes to the first-encountered
label, which is not the just-registered record's. -/
theorem C3_counterexample :
    let s0 : SystemState :=
      ⟨⟨false, [⟨1, "Bob", [0], "default_user", 0, none⟩]⟩, [], none⟩
    matchProbe (registerFaceFlow s0 "Alice" [0] 2 1) [0] = some ("Bob", 0) ∧
      "Bob" ≠ "Alice" := by
  have htrim : strTrim "Alice" = "Alice" := by decide
  have h1 : distSq [0] [0] = 0 := distSq_self _
  have h2 : ((0 : ℚ) ≤ matcherThresholdSq) := by norm_num [matcherThresholdSq]
  refine ⟨?_, by decide⟩
  simp [registerFaceFlow, registerRoute, htrim, defaultedUserId,
    loadRegisteredFaces, loadFaceDescriptors, descriptorsRoute, listFacesRoute,
    uidMatch, toMeta, matchProbe, findBestMatch, bestRef, h1, h2]

/-- Claim C3 (amended): for every successful `register(name)` call the
MatcherCache is rebuilt synchronously from the store's full descriptor
list before register returns — the store gains exactly the new record —
and a match on the just-registered descriptor on the very next detection
tick returns that record's label, provided no already-stored record of
the default user carries an identical descriptor (distance 0) under a
different name (otherwise the first-encountered equal-distance label
wins the tie). -/
theorem C3_register_then_match (s : SystemState) (name : String) (d : List ℚ)
    (newId ts : Nat) (hname : strTrim name ≠ "")
    (hdup : ∀ f ∈ s.server.faces, f.userId = "default_user" →
      distSq d f.descriptor = 0 → f.name = name) :
    (∃ r : FaceRec, (registerFaceFlow s name d newId ts).server.faces =
        s.server.faces ++ [r] ∧ r.name = name ∧ r.descriptor = d) ∧
    matchProbe (registerFaceFlow s name d newId ts) d = some (name, 0) := by
  have hne : name ≠ "" := by
    intro h
    exact hname (by rw [h]; rfl)
  set newRec : FaceRec :=
    ⟨newId, name, d, "default_user", ts, none⟩ with hrec
  have hflow : registerFaceFlow s name d newId ts =
      loadRegisteredFaces
        { s with server := ⟨s.server.mongoConnected, s.server.faces ++ [newRec]⟩ } := by
    simp [registerFaceFlow, hname, registerRoute, hne, defaultedUserId, hrec]
  have hfaces : (registerFaceFlow s name d newId ts).server.faces =
      s.server.faces ++ [newRec] := by
    rw [hflow]
    simp [loadRegisteredFaces, loadFaceDescriptors]
    split <;> rfl
  refine ⟨⟨newRec, hfaces, rfl, rfl⟩, ?_⟩
  -- the descriptor list the matcher is rebuilt from
  have hmatch : uidMatch (some "default_user") newRec = true := by
    simp [uidMatch, hrec]
  set refs : List (String × List ℚ) :=
    ((s.server.faces.filter (uidMatch (some "default_user"))).map
      (fun f => (f.name, f.descriptor))) ++ [(name, d)] with hrefs
  have hmatcher : (registerFaceFlow s name d newId ts).faceMatcher =
      some ⟨refs, matcherThresholdSq⟩ := by
    rw [hflow]
    simp only [loadRegisteredFaces, loadFaceDescriptors, descriptorsRoute]
    rw [List.filter_append]
    simp [hmatch, hrefs, hrec]
  have hne' : refs ≠ [] := by
    simp [hrefs]
  obtain ⟨best, hmem, heq, hmin⟩ :=
    findBestMatch_spec refs matcherThresholdSq d hne'
  have hd0 : distSq d best.2 = 0 := by
    have h1 : distSq d best.2 ≤ distSq d d :=
      hmin (name, d) (by simp [hrefs])
    rw [distSq_self] at h1
    exact le_antisymm h1 (distSq_nonneg _ _)
  have hlbl : best.1 = name := by
    rcases List.mem_append.1 hmem with hmem1 | hmem1
    · obtain ⟨f, hf, hfe⟩ := List.mem_map.1 hmem1
      obtain ⟨hfl, hfu⟩ := List.mem_filter.1 hf
      have huid : f.userId = "default_user" := by
        simpa [uidMatch] using hfu
      have hdist : distSq d f.descriptor = 0 := by
        have : best.2 = f.descriptor := by rw [← hfe]
        rw [this] at hd0
        exact hd0
      have := hdup f hfl huid hdist
      rw [← hfe]
      exact this
    · have : best = (name, d) := by simpa using hmem1
      rw [this]
  have hth : distSq d best.2 ≤ matcherThresholdSq := by
    rw [hd0]
    norm_num [matcherThresholdSq]
  have hmp : matchProbe (registerFaceFlow s name d newId ts) d =
      findBestMatch ⟨refs, matcherThresholdSq⟩ d := by
    simp only [matchProbe, hmatcher]
  rw [hmp, heq, if_pos hth, hd0, hlbl]

/-- Witness for C3 (amended): registering "Alice" with descriptor
[0, 0, 0] into an empty store makes the next match on [0, 0, 0] return
("Alice", 0). -/
theorem C3_register_then_match_witness :
    matchProbe
      (registerFaceFlow ⟨⟨false, []⟩, [], none⟩ "Alice" [0, 0, 0] 1 0)
      [0, 0, 0] = some ("Alice", 0) :=
  (C3_register_then_match ⟨⟨false, []⟩, [], none⟩ "Alice" [0, 0, 0] 1 0
    (by decide) (by simp)).2

/-- Counterexample to claim C4 as stated: a register request with a
non-empty name and an *empty* descriptor array is not rejected — a
JavaScript array is truthy even when empty, so `!faceDescriptor` does not
fire — and a record with an empty descriptor is appended. -/
theorem C4_counterexample :
    (registerRoute ⟨false, []⟩ ⟨some "Alice", some [], none, none⟩ 1 0).status = 200 ∧
    (registerRoute ⟨false, []⟩ ⟨some "Alice", some [], none, none⟩ 1 0).success = true ∧
    (registerRoute ⟨false, []⟩ ⟨some "Alice", some [], none, none⟩ 1 0).server.faces =
      [⟨1, "Alice", [], "default_user", 0, none⟩] := by
  decide

/-- Claim C4 (amended): the register route fails with HTTP 400 if and
only if the name is missing or empty, or the descriptor is *missing* —
an empty descriptor array is accepted; the rejection happens before any
record is written, and every non-rejected request appends exactly one
record. -/
theorem C4_register_validation (s : ServerState) (req : RegisterReq) (newId ts : Nat) :
    (((registerRoute s req newId ts).status = 400 ∧
        (registerRoute s req newId ts).success = false) ↔
      (req.name = none ∨ req.name = some "" ∨ req.faceDescriptor = none)) ∧
    ((registerRoute s req newId ts).status = 400 →
      (registerRoute s req newId ts).server = s) ∧
    ((registerRoute s req newId ts).status ≠ 400 →
      ∃ r : FaceRec, (registerRoute s req newId ts).server.faces = s.faces ++ [r] ∧
        (registerRoute s req newId ts).success = true) := by
  rcases req with ⟨nm, fd, uid, img⟩
  cases nm with
  | none => cases fd <;> simp [registerRoute]
  | some n =>
    cases fd with
    | none => simp [registerRoute]
    | some d =>
      by_cases hn : n = ""
      · simp [registerRoute, hn]
      · refine ⟨by simp [registerRoute, hn], by simp [registerRoute, hn], ?_⟩
        intro _
        refine ⟨⟨newId, n, d, defaultedUserId uid, ts, img⟩, ?_, ?_⟩ <;>
          simp [registerRoute, hn]

/-- Witness for C4 (amended): a valid request ("Bob", descriptor [1])
is not rejected and appends exactly one record. -/
theorem C4_register_validation_witness :
    ∃ r : FaceRec,
      (registerRoute ⟨false, []⟩ ⟨some "Bob", some [1], none, none⟩ 3 2).server.faces =
        ([] : List FaceRec) ++ [r] ∧
      (registerRoute ⟨false, []⟩ ⟨some "Bob", some [1], none, none⟩ 3 2).success = true :=
  (C4_register_validation ⟨false, []⟩ ⟨some "Bob", some [1], none, none⟩ 3 2).2.2
    (by decide)

/-- Claim C5: `calculateSafetyScore` starts from base 75, adds 10 when
the route's duration is under 15 minutes (900 s), subtracts 10 when it
exceeds 45 minutes (2700 s), clamps to [50, 95] — equivalently, on every
route with at least one leg it returns 85, 65 or 75 according to that
threshold split (the clamp is inert); in particular duration 600 s scores
85 and duration 3600 s scores 65.  Being a Lean function of the route, it
is deterministic and has no side effects. -/
theorem C5_safety_score :
    (∀ (route : Route) (leg : RouteLeg) (rest : List RouteLeg), route.legs = leg :: rest →
      calculateSafetyScore route =
        some (if leg.duration.value < 900 then (85 : ℚ)
              else if 2700 < leg.duration.value then 65 else 75)) ∧
    calculateSafetyScore ⟨[⟨⟨600⟩⟩]⟩ = some 85 ∧
    calculateSafetyScore ⟨[⟨⟨3600⟩⟩]⟩ = some 65 := by
  have hmain : ∀ (route : Route) (leg : RouteLeg) (rest : List RouteLeg),
      route.legs = leg :: rest →
      calculateSafetyScore route =
        some (if leg.duration.value < 900 then (85 : ℚ)
              else if 2700 < leg.duration.value then 65 else 75) := by
    intro route leg rest h
    have hlt : leg.duration.value / 60 < 15 ↔ leg.duration.value < 900 := by
      rw [div_lt_iff₀ (by norm_num : (0:ℚ) < 60)]; norm_num
    have hgt : (45 : ℚ) < leg.duration.value / 60 ↔ 2700 < leg.duration.value := by
      rw [lt_div_iff₀ (by norm_num : (0:ℚ) < 60)]; norm_num
    simp only [calculateSafetyScore, h]
    by_cases hc1 : leg.duration.value < 900
    · have e1 : leg.duration.value / 60 < 15 := hlt.2 hc1
      have e2 : ¬ (45 : ℚ) < leg.duration.value / 60 := by rw [hgt]; linarith
      simp only [e1, e2, hc1, if_true, if_false, ite_true, ite_false]
      norm_num [max_def, min_def]
    · by_cases hc2 : (2700 : ℚ) < leg.duration.value
      · have e1 : ¬ leg.duration.value / 60 < 15 := by rw [hlt]; exact hc1
        have e2 : (45 : ℚ) < leg.duration.value / 60 := hgt.2 hc2
        simp only [e1, e2, hc1, hc2, if_true, if_false, ite_true, ite_false]
        norm_num [max_def, min_def]
      · have e1 : ¬ leg.duration.value / 60 < 15 := by rw [hlt]; exact hc1
        have e2 : ¬ (45 : ℚ) < leg.duration.value / 60 := by rw [hgt]; exact hc2
        simp only [e1, e2, hc1, hc2, if_true, if_false, ite_true, ite_false]
        norm_num [max_def, min_def]
  refine ⟨hmain, ?_, ?_⟩
  · rw [hmain ⟨[⟨⟨600⟩⟩]⟩ ⟨⟨600⟩⟩ [] rfl]
    norm_num
  · rw [hmain ⟨[⟨⟨3600⟩⟩]⟩ ⟨⟨3600⟩⟩ [] rfl]
    norm_num

/-- Witness for C5: the theorem applied to the 600-second route. -/
theorem C5_safety_score_witness :
    calculateSafetyScore ⟨[⟨⟨600⟩⟩]⟩ =
      some (if (600 : ℚ) < 900 then (85 : ℚ) else if 2700 < (600 : ℚ) then 65 else 75) :=
  C5_safety_score.1 ⟨[⟨⟨600⟩⟩]⟩ ⟨⟨600⟩⟩ [] rfl

/-- Claim C6 (code bug): the spec requires that a tick arriving while a
previous tick's model call is in flight be dropped (at most one call in
flight), and that no result be applied after the camera is stopped.  The
code has neither guard: `detectFaces` checks only `videoRef`,
`modelsLoaded` and `canvasRef`, so a second interval tick starts a second
concurrent model call (`inFlight = 2`), and the continuation after the
`await` applies its result unconditionally, so a call resolving after
`stopWebcam` still applies its detections (`applied = [7]` with the
camera off). -/
theorem C6_detection_loop_bug :
    (runLoop ⟨true, true, 0, []⟩ [Ev.tick, Ev.tick]).inFlight = 2 ∧
    (runLoop ⟨true, true, 0, []⟩ [Ev.tick, Ev.stop, Ev.resolve 7]).cameraOn = false ∧
    (runLoop ⟨true, true, 0, []⟩ [Ev.tick, Ev.stop, Ev.resolve 7]).applied = [7] := by
  decide

/-- Claim C7: `delete(id)` reports success for every id — including one
identifying no stored record — on both the MongoDB and the in-memory
backend, and afterwards a record is stored iff it was stored before and
does not carry the deleted id. -/
theorem C7_delete_always_succeeds (s : ServerState) (id : Nat) :
    (deleteFaceRoute s id).2 = true ∧
    ∀ f : FaceRec, f ∈ (deleteFaceRoute s id).1.faces ↔ (f ∈ s.faces ∧ f.id ≠ id) := by
  rcases s with ⟨mc, faces⟩
  cases mc <;> simp [deleteFaceRoute, List.mem_filter]

/-- Ordering on returned face metadata by descending timestamp. -/
def tsDescMeta (a b : FaceMeta) : Prop := b.timestamp ≤ a.timestamp

instance : DecidableRel tsDescMeta := fun a b =>
  inferInstanceAs (Decidable (b.timestamp ≤ a.timestamp))

/-- Counterexample to claim C8 as stated: on the in-memory backend two
records inserted oldest-first (timestamps 10 then 20) are returned in
insertion order — not newest-first — because the in-memory branch of the
list route never sorts. -/
theorem C8_counterexample :
    listFacesRoute ⟨false,
        [⟨1, "A", [], "default_user", 10, none⟩,
         ⟨2, "B", [], "default_user", 20, none⟩]⟩ none =
      [⟨1, "A", 10, none⟩, ⟨2, "B", 20, none⟩] ∧
    ¬ List.Sorted tsDescMeta
        (listFacesRoute ⟨false,
          [⟨1, "A", [], "default_user", 10, none⟩,
           ⟨2, "B", [], "default_user", 20, none⟩]⟩ none) := by
  constructor
  · simp [listFacesRoute, uidMatch, toMeta]
  · intro hs
    have h12 : tsDescMeta ⟨1, "A", 10, none⟩ ⟨2, "B", 20, none⟩ := by
      simpa [listFacesRoute, uidMatch, toMeta, List.sorted_cons] using hs
    simp [tsDescMeta] at h12

/-- Claim C8 (amended): `list` returns exactly the records matching the
userId filter with the descriptor payload excluded from every entry, as
a permutation of the filtered store; on the MongoDB backend the result
is ordered newest-first, while the in-memory fallback returns the
filtered records in stored (insertion) order with no sort. -/
theorem C8_list_faces (s : ServerState) (userId : Option String) :
    List.Perm (listFacesRoute s userId) ((s.faces.filter (uidMatch userId)).map toMeta) ∧
    (s.mongoConnected = true → List.Sorted tsDescMeta (listFacesRoute s userId)) ∧
    (s.mongoConnected = false →
      listFacesRoute s userId = (s.faces.filter (uidMatch userId)).map toMeta) := by
  rcases s with ⟨mc, faces⟩
  cases mc with
  | false => simp [listFacesRoute]
  | true =>
    refine ⟨?_, fun _ => ?_, by simp⟩
    · simpa [listFacesRoute] using
        (List.perm_insertionSort tsDesc (faces.filter (uidMatch userId))).map toMeta
    · have hs := List.sorted_insertionSort tsDesc (faces.filter (uidMatch userId))
      simp only [listFacesRoute, if_pos]
      rw [List.Sorted, List.pairwise_map]
      exact hs

/-- Witness for C8 (amended): on the MongoDB backend a two-record store
is listed newest-first (sorted by descending timestamp). -/
theorem C8_list_faces_witness :
    List.Sorted tsDescMeta
      (listFacesRoute ⟨true,
        [⟨1, "A", [], "default_user", 10, none⟩,
         ⟨2, "B", [], "default_user", 20, none⟩]⟩ none) :=
  (C8_list_faces ⟨true,
    [⟨1, "A", [], "default_user", 10, none⟩,
     ⟨2, "B", [], "default_user", 20, none⟩]⟩ none).2.1 rfl

/-- Counterexample to claim C9 as stated: two notifications added during
the same `Date.now()` millisecond share the id 5; the scheduled removal
of the second one removes *both* entries, so another pending
notification is not left unchanged. -/
theorem C9_counterexample :
    (⟨5, "first", "info"⟩ : NotificationEntry) ∈
      (addNotificationStep (addNotificationStep [] 5 "first" "info").1 5 "second" "info").1 ∧
    removeNotificationStep
      (addNotificationStep (addNotificationStep [] 5 "first" "info").1 5 "second" "info").1
      5 = [] := by
  decide

/-- Claim C9 (amended): `notify` schedules removal of the new entry at
exactly the fixed 5-second delay, and when every other pending entry has
a different id (was added at a different millisecond) the removal
deletes exactly the added entry and leaves all others unchanged. -/
theorem C9_notification_removal (notifs : List NotificationEntry) (now : Nat)
    (message ntype : String) (h : ∀ n ∈ notifs, n.id ≠ now) :
    (addNotificationStep notifs now message ntype).2 = now + 5000 ∧
    removeNotificationStep (addNotificationStep notifs now message ntype).1 now =
      notifs := by
  have hkeep : List.filter (fun n => n.id != now) notifs = notifs :=
    List.filter_eq_self.2 (fun n hn => by simpa using h n hn)
  exact ⟨rfl, by simp [addNotificationStep, removeNotificationStep,
    List.filter_append, hkeep]⟩

/-- Witness for C9 (amended): adding at millisecond 5 next to an entry
with id 1 removes only the new entry. -/
theorem C9_notification_removal_witness :
    (addNotificationStep [⟨1, "a", "info"⟩] 5 "hello" "success").2 = 5 + 5000 ∧
    removeNotificationStep
      (addNotificationStep [⟨1, "a", "info"⟩] 5 "hello" "success").1 5 =
      [⟨1, "a", "info"⟩] :=
  C9_notification_removal [⟨1, "a", "info"⟩] 5 "hello" "success" (by decide)

/-- Claim C10: on every route with at least one leg,
`calculateSafetyScore` returns exactly one of 65, 75 or 85, and the
returned value equals the unclamped computed score — the clamp to
[50, 95] never alters it. -/
theorem C10_score_values (route : Route) (leg : RouteLeg) (rest : List RouteLeg)
    (h : route.legs = leg :: rest) :
    ∃ s : ℚ, calculateSafetyScore route = some s ∧ (s = 65 ∨ s = 75 ∨ s = 85) ∧
      s = (if leg.duration.value / 60 < 15 then (75 : ℚ) + 10 else 75) -
          (if 45 < leg.duration.value / 60 then 10 else 0) := by
  simp only [calculateSafetyScore, h]
  refine ⟨_, rfl, ?_, ?_⟩ <;>
  · by_cases hc1 : leg.duration.value / 60 < 15
    · have hc2 : ¬ (45 : ℚ) < leg.duration.value / 60 := by linarith
      simp only [hc1, hc2, if_true, if_false, ite_true, ite_false]
      norm_num [max_def, min_def]
    · by_cases hc2 : (45 : ℚ) < leg.duration.value / 60
      · simp only [hc1, hc2, if_true, if_false, ite_true, ite_false]
        norm_num [max_def, min_def]
      · simp only [hc1, hc2, if_true, if_false, ite_true, ite_false]
        norm_num [max_def, min_def]

/-- Witness for C10: the 600-second route scores 85, one of the three
values, with the clamp inert. -/
theorem C10_score_values_witness :
    ∃ s : ℚ, calculateSafetyScore ⟨[⟨⟨600⟩⟩]⟩ = some s ∧
      (s = 65 ∨ s = 75 ∨ s = 85) ∧
      s = (if (600 : ℚ) / 60 < 15 then (75 : ℚ) + 10 else 75) -
          (if 45 < (600 : ℚ) / 60 then 10 else 0) :=
  C10_score_values ⟨[⟨⟨600⟩⟩]⟩ ⟨⟨600⟩⟩ [] rfl

end VisionAssist
